import Mathlib

/-!
# Verification of the helmath vector core

A shallow embedding of the `hm` vector classes (`vector.h`) and the
2-component swizzle proxy classes (`swizzle2_class_macros.h`).

Modelling conventions:
* `Vec2<T>` / `Vec3<T>` / `Vec4<T>` become Lean structures; the union of
  `x,y,..`, `s,t,..` and the flat array `T v[N]` is one storage block, so the
  structure fields are the storage and `get`/`set` give the array view.
* The floating-point instantiations (`float`/`double`) are modelled with exact
  field arithmetic; concrete theorems use `ℚ`.  `static_cast<T>` between
  `double` and the element type is the identity under this convention.
* `double length()` computes `sqrt` of the sum of squares.  Square roots are
  irrational in general, so the normalisation routines take the square-root
  function as an explicit parameter `sqrt : ℚ → ℚ`; the radicand
  (`lengthSq`) is kept exact.
* A C++ member that mutates `*this` is modelled as a function returning the
  receiver's new state.  Where the value of the whole expression matters, the
  function returns a pair `(value, state)`; a `void` return is recorded as the
  value `none` of an `Option`.
-/

namespace hm

variable {α : Type}

/-- `Vec2<T>` (vector.h lines 37-312).  The union overlays `x,y`, `s,t` and
`T v[2]` on the same storage; the two fields are that storage. -/
structure Vec2 (α : Type) where
  x : α
  y : α
  deriving DecidableEq, Repr

/-- `Vec3<T>` (vector.h lines 399-618): storage `x,y,z` (aka `r,g,b`,
`s,t,p`, `T v[3]`). -/
structure Vec3 (α : Type) where
  x : α
  y : α
  z : α
  deriving DecidableEq, Repr

/-- `Vec4<T>` (vector.h lines 705-888): storage `x,y,z,w` (aka `r,g,b,a`,
`s,t,p,q`, `T v[4]`). -/
structure Vec4 (α : Type) where
  x : α
  y : α
  z : α
  w : α
  deriving DecidableEq, Repr

/-- The flat array view `T v[2]` of the `Vec2` union: `v[0]` aliases `x`,
`v[1]` aliases `y`. -/
def Vec2.get (v : Vec2 α) (i : Fin 2) : α :=
  match i with
  | ⟨0, _⟩ => v.x
  | ⟨_ + 1, _⟩ => v.y

/-- Writing through the flat array view `T v[2]`: `v[i] = a`. -/
def Vec2.set (v : Vec2 α) (i : Fin 2) (a : α) : Vec2 α :=
  match i with
  | ⟨0, _⟩ => ⟨a, v.y⟩
  | ⟨_ + 1, _⟩ => ⟨v.x, a⟩

/-- `Vec2()` default constructor (lines 87-88): initialises both values
to 0. -/
def Vec2.mkZero : Vec2 ℚ := ⟨0, 0⟩

/-- `Vec3()` default constructor (lines 430-431). -/
def Vec3.mkZero : Vec3 ℚ := ⟨0, 0, 0⟩

/-- `Vec4()` default constructor (lines 739-740). -/
def Vec4.mkZero : Vec4 ℚ := ⟨0, 0, 0, 0⟩

/-! ## Vec2 compound assignment operators (vector.h lines 233-311)

Each returns `(value of the expression, state of the receiver after the
call)`.  Every one of these operators is declared with return type `void` in
the source, so the expression value component is `none`. -/

/-- `Vec2::operator+=(const Vec2&)` (lines 233-237).  The body is
`x /= rhs.x; y /= rhs.y;` — it divides, although the accompanying comment
says "Adds a vector to the left hand side operand". -/
def Vec2.addAssignVec [Field α] (v rhs : Vec2 α) : Option (Vec2 α) × Vec2 α :=
  (none, ⟨v.x / rhs.x, v.y / rhs.y⟩)

/-- `Vec2::operator-=(const Vec2&)` (lines 243-247): `x -= rhs.x; y -= rhs.y;`. -/
def Vec2.subAssignVec [Field α] (v rhs : Vec2 α) : Option (Vec2 α) × Vec2 α :=
  (none, ⟨v.x - rhs.x, v.y - rhs.y⟩)

/-- `Vec2::operator*=(const Vec2&)` (lines 253-257).  The body is
`x *= rhs.x; y *= rhs.x;` — the second statement multiplies `y` by `rhs.x`,
not `rhs.y`. -/
def Vec2.mulAssignVec [Field α] (v rhs : Vec2 α) : Option (Vec2 α) × Vec2 α :=
  (none, ⟨v.x * rhs.x, v.y * rhs.x⟩)

/-- `Vec2::operator/=(const Vec2&)` (lines 263-267): `x /= rhs.x; y /= rhs.y;`. -/
def Vec2.divAssignVec [Field α] (v rhs : Vec2 α) : Option (Vec2 α) × Vec2 α :=
  (none, ⟨v.x / rhs.x, v.y / rhs.y⟩)

/-- `Vec2::operator+=(T)` (lines 289-293). -/
def Vec2.addAssignScalar [Field α] (v : Vec2 α) (rhs : α) : Option (Vec2 α) × Vec2 α :=
  (none, ⟨v.x + rhs, v.y + rhs⟩)

/-- `Vec2::operator-=(T)` (lines 295-299). -/
def Vec2.subAssignScalar [Field α] (v : Vec2 α) (rhs : α) : Option (Vec2 α) × Vec2 α :=
  (none, ⟨v.x - rhs, v.y - rhs⟩)

/-- `Vec2::operator*=(T)` (lines 301-305). -/
def Vec2.mulAssignScalar [Field α] (v : Vec2 α) (rhs : α) : Option (Vec2 α) × Vec2 α :=
  (none, ⟨v.x * rhs, v.y * rhs⟩)

/-- `Vec2::operator/=(T)` (lines 307-311). -/
def Vec2.divAssignScalar [Field α] (v : Vec2 α) (rhs : α) : Option (Vec2 α) × Vec2 α :=
  (none, ⟨v.x / rhs, v.y / rhs⟩)

/-! ## Vec3 compound assignment operators (vector.h lines 543-617), all
declared `void`. -/

/-- `Vec3::operator+=(const Vec3&)` (lines 543-548). -/
def Vec3.addAssignVec [Field α] (v rhs : Vec3 α) : Option (Vec3 α) × Vec3 α :=
  (none, ⟨v.x + rhs.x, v.y + rhs.y, v.z + rhs.z⟩)

/-- `Vec3::operator-=(const Vec3&)` (lines 550-555). -/
def Vec3.subAssignVec [Field α] (v rhs : Vec3 α) : Option (Vec3 α) × Vec3 α :=
  (none, ⟨v.x - rhs.x, v.y - rhs.y, v.z - rhs.z⟩)

/-- `Vec3::operator*=(const Vec3&)` (lines 557-562). -/
def Vec3.mulAssignVec [Field α] (v rhs : Vec3 α) : Option (Vec3 α) × Vec3 α :=
  (none, ⟨v.x * rhs.x, v.y * rhs.y, v.z * rhs.z⟩)

/-- `Vec3::operator/=(const Vec3&)` (lines 564-569). -/
def Vec3.divAssignVec [Field α] (v rhs : Vec3 α) : Option (Vec3 α) × Vec3 α :=
  (none, ⟨v.x / rhs.x, v.y / rhs.y, v.z / rhs.z⟩)

/-- `Vec3::operator+=(T)` (lines 591-596). -/
def Vec3.addAssignScalar [Field α] (v : Vec3 α) (rhs : α) : Option (Vec3 α) × Vec3 α :=
  (none, ⟨v.x + rhs, v.y + rhs, v.z + rhs⟩)

/-- `Vec3::operator-=(T)` (lines 598-603). -/
def Vec3.subAssignScalar [Field α] (v : Vec3 α) (rhs : α) : Option (Vec3 α) × Vec3 α :=
  (none, ⟨v.x - rhs, v.y - rhs, v.z - rhs⟩)

/-- `Vec3::operator*=(T)` (lines 605-610). -/
def Vec3.mulAssignScalar [Field α] (v : Vec3 α) (rhs : α) : Option (Vec3 α) × Vec3 α :=
  (none, ⟨v.x * rhs, v.y * rhs, v.z * rhs⟩)

/-- `Vec3::operator/=(T)` (lines 612-617). -/
def Vec3.divAssignScalar [Field α] (v : Vec3 α) (rhs : α) : Option (Vec3 α) × Vec3 α :=
  (none, ⟨v.x / rhs, v.y / rhs, v.z / rhs⟩)

/-! ## Vec4 compound assignment operators (vector.h lines 805-887), all
declared `void`. -/

/-- `Vec4::operator+=(const Vec4&)` (lines 805-811). -/
def Vec4.addAssignVec [Field α] (v rhs : Vec4 α) : Option (Vec4 α) × Vec4 α :=
  (none, ⟨v.x + rhs.x, v.y + rhs.y, v.z + rhs.z, v.w + rhs.w⟩)

/-- `Vec4::operator-=(const Vec4&)` (lines 813-819). -/
def Vec4.subAssignVec [Field α] (v rhs : Vec4 α) : Option (Vec4 α) × Vec4 α :=
  (none, ⟨v.x - rhs.x, v.y - rhs.y, v.z - rhs.z, v.w - rhs.w⟩)

/-- `Vec4::operator*=(const Vec4&)` (lines 821-827). -/
def Vec4.mulAssignVec [Field α] (v rhs : Vec4 α) : Option (Vec4 α) × Vec4 α :=
  (none, ⟨v.x * rhs.x, v.y * rhs.y, v.z * rhs.z, v.w * rhs.w⟩)

/-- `Vec4::operator/=(const Vec4&)` (lines 829-835). -/
def Vec4.divAssignVec [Field α] (v rhs : Vec4 α) : Option (Vec4 α) × Vec4 α :=
  (none, ⟨v.x / rhs.x, v.y / rhs.y, v.z / rhs.z, v.w / rhs.w⟩)

/-- `Vec4::operator+=(T)` (lines 857-863). -/
def Vec4.addAssignScalar [Field α] (v : Vec4 α) (rhs : α) : Option (Vec4 α) × Vec4 α :=
  (none, ⟨v.x + rhs, v.y + rhs, v.z + rhs, v.w + rhs⟩)

/-- `Vec4::operator-=(T)` (lines 865-871). -/
def Vec4.subAssignScalar [Field α] (v : Vec4 α) (rhs : α) : Option (Vec4 α) × Vec4 α :=
  (none, ⟨v.x - rhs, v.y - rhs, v.z - rhs, v.w - rhs⟩)

/-- `Vec4::operator*=(T)` (lines 873-879). -/
def Vec4.mulAssignScalar [Field α] (v : Vec4 α) (rhs : α) : Option (Vec4 α) × Vec4 α :=
  (none, ⟨v.x * rhs, v.y * rhs, v.z * rhs, v.w * rhs⟩)

/-- `Vec4::operator/=(T)` (lines 881-887). -/
def Vec4.divAssignScalar [Field α] (v : Vec4 α) (rhs : α) : Option (Vec4 α) × Vec4 α :=
  (none, ⟨v.x / rhs, v.y / rhs, v.z / rhs, v.w / rhs⟩)

/-! ## Length and normalisation

`length()` returns `sqrt` of the sum of squares as a `double`; the zero test
`if (!len)` compares that `double` against `0.0`.  We keep the radicand exact
(`lengthSq`) and take the square-root function as a parameter. -/

/-- The radicand of `Vec2::length()` (lines 113-116): `x * x + y * y`. -/
def Vec2.lengthSq (v : Vec2 ℚ) : ℚ := v.x * v.x + v.y * v.y

/-- The radicand of `Vec3::length()` (lines 444-447). -/
def Vec3.lengthSq (v : Vec3 ℚ) : ℚ := v.x * v.x + v.y * v.y + v.z * v.z

/-- The radicand of `Vec4::length()` (lines 748-751). -/
def Vec4.lengthSq (v : Vec4 ℚ) : ℚ :=
  v.x * v.x + v.y * v.y + v.z * v.z + v.w * v.w

/-- `Vec2::normalize()` (lines 132-141): `double len = length(); if (!len)
return; *this /= len;` — the division is `operator/=(T)`. -/
def Vec2.normalize (sqrt : ℚ → ℚ) (v : Vec2 ℚ) : Vec2 ℚ :=
  let len := sqrt v.lengthSq
  if len = 0 then v else (v.divAssignScalar len).2

/-- `Vec2::normalized() const` (lines 147-157): on zero length returns
`Vec2<T>{}` (the zero vector), otherwise a fresh `Vec2<T>{x / len, y / len}`.
Modelled as `(returned vector, state of the receiver after the call)`; the
body only reads the members, so the state is the receiver unchanged. -/
def Vec2.normalized (sqrt : ℚ → ℚ) (v : Vec2 ℚ) : Vec2 ℚ × Vec2 ℚ :=
  let len := sqrt v.lengthSq
  if len = 0 then (Vec2.mkZero, v) else (⟨v.x / len, v.y / len⟩, v)

/-- `Vec3::normalize()` (lines 458-467). -/
def Vec3.normalize (sqrt : ℚ → ℚ) (v : Vec3 ℚ) : Vec3 ℚ :=
  let len := sqrt v.lengthSq
  if len = 0 then v else (v.divAssignScalar len).2

/-- `Vec3::normalized() const` (lines 469-480), pure like `Vec2`'s. -/
def Vec3.normalized (sqrt : ℚ → ℚ) (v : Vec3 ℚ) : Vec3 ℚ × Vec3 ℚ :=
  let len := sqrt v.lengthSq
  if len = 0 then (Vec3.mkZero, v)
  else (⟨v.x / len, v.y / len, v.z / len⟩, v)

/-- `Vec4::normalize()` (lines 758-767). -/
def Vec4.normalize (sqrt : ℚ → ℚ) (v : Vec4 ℚ) : Vec4 ℚ :=
  let len := sqrt v.lengthSq
  if len = 0 then v else (v.divAssignScalar len).2

/-- `Vec4::normalized() const` (lines 769-778).  The nonzero branch is
`return Vec4<T>{*this /= len};`: it divides the receiver in place and hands
the mutated receiver to the constructor.  (As C++ the statement is
ill-formed — a `const` member calling the non-const `operator/=`, whose
return type is `void` — so we model the evident meaning of the written
statements: the receiver is mutated and a copy of it is returned.) -/
def Vec4.normalized (sqrt : ℚ → ℚ) (v : Vec4 ℚ) : Vec4 ℚ × Vec4 ℚ :=
  let len := sqrt v.lengthSq
  if len = 0 then (Vec4.mkZero, v)
  else
    let v2 := (v.divAssignScalar len).2
    (v2, v2)

/-! ## Scalar multiplication -/

/-- `Vec2::operator*(T)` (lines 279-282). -/
def Vec2.mulScalar [Field α] (v : Vec2 α) (rhs : α) : Vec2 α :=
  ⟨v.x * rhs, v.y * rhs⟩

/-- `Vec3::operator*(T)` (lines 581-584). -/
def Vec3.mulScalar [Field α] (v : Vec3 α) (rhs : α) : Vec3 α :=
  ⟨v.x * rhs, v.y * rhs, v.z * rhs⟩

/-- `Vec4::operator*(T)` (lines 847-850). -/
def Vec4.mulScalar [Field α] (v : Vec4 α) (rhs : α) : Vec4 α :=
  ⟨v.x * rhs, v.y * rhs, v.z * rhs, v.w * rhs⟩

/-- Modelled from the spec: the free scalar-times-vector operator for two
dimensional vectors.  The expression `s * v` is exercised by the test suite
but its definition is not among the provided sources; the spec states that
scalar multiplication broadcasts the scalar over every component and that
`s * v` equals `v * s`. -/
def scalarMulVec2 [Field α] (s : α) (v : Vec2 α) : Vec2 α :=
  ⟨s * v.x, s * v.y⟩

/-- Modelled from the spec: the free scalar-times-vector operator for three
dimensional vectors (called by `test_operator_overload_scalar_mult_vec` as
`2.0 * v`); broadcasts the scalar over every component. -/
def scalarMulVec3 [Field α] (s : α) (v : Vec3 α) : Vec3 α :=
  ⟨s * v.x, s * v.y, s * v.z⟩

/-- Modelled from the spec: the free scalar-times-vector operator for four
dimensional vectors; broadcasts the scalar over every component. -/
def scalarMulVec4 [Field α] (s : α) (v : Vec4 α) : Vec4 α :=
  ⟨s * v.x, s * v.y, s * v.z, s * v.w⟩

/-! ## The four dimensional cross product -/

/-- `cross(const Vec4&, const Vec4&, const Vec4&)` (vector.h lines
1063-1067): the body is only the comment `//TODO` — there is no return
statement, so no result vector is ever produced.  The produced value is
recorded as an `Option`, and it is `none`. -/
def cross4 (_v1 _v2 _v3 : Vec4 α) : Option (Vec4 α) :=
  none

/-! ## The 2-component swizzle proxies (swizzle2_class_macros.h)

A `_Swizzle<A, B>` proxy owns no data: its `T v[2]` occupies the same union
storage as the parent vector's components, so the proxy is modelled by the
parent `Vec2` itself together with the compile-time indices `A B : Fin 2`.
C++ selects the partial specialisation `_Swizzle<A, A>` whenever the two
indices coincide, and the generic `_Swizzle<A, B>` otherwise. -/

/-- Generic `_Swizzle<A, B>::operator=(const Vec2&)` (lines 10-16):
`v[A] = rhs.x; v[B] = rhs.y; return *(Vec2<T> *) this;`.  Result:
`(value of the returned reference, parent state after the writes)` — the
returned reference is the parent itself, observed after both writes. -/
def Swizzle2.assign (A B : Fin 2) (parent rhs : Vec2 α) : Vec2 α × Vec2 α :=
  let p := (parent.set A rhs.x).set B rhs.y
  (p, p)

/-- Generic `_Swizzle<A, B>::operator Vec2()` (lines 18-21): returns
`Vec2<T>{v[A], v[B]}`, reading the parent without modifying it. -/
def Swizzle2.convGeneric (A B : Fin 2) (parent : Vec2 α) : Vec2 α :=
  ⟨parent.get A, parent.get B⟩

/-- Generic `_Swizzle<A, B>::operator+=(const Vec2&)` (lines 48-53):
`v[A] += rhs.x; v[B] += rhs.y; return *(Vec2<T> *) this;`.  The second
statement reads `v[B]` after the first statement's write. -/
def Swizzle2.addAssign [Field α] (A B : Fin 2) (parent rhs : Vec2 α) :
    Vec2 α × Vec2 α :=
  let p1 := parent.set A (parent.get A + rhs.x)
  let p2 := p1.set B (p1.get B + rhs.y)
  (p2, p2)

/-- Specialised `_Swizzle<A, A>::operator Vec2()` (lines 131-134): returns
`Vec2<T>{v[A]}` — the single-argument constructor, which broadcasts the
value to both components. -/
def Swizzle2Spec.conv (A : Fin 2) (parent : Vec2 α) : Vec2 α :=
  ⟨parent.get A, parent.get A⟩

/-- The specialised `_Swizzle<A, A>` class (lines 125-180) declares
`operator Vec2`, `operator()` and the out-of-place `+ - * /`, but **no**
`operator=(const Vec2&)` and no compound assignment: assignment of a vector
into a repeated-index swizzle is not part of its interface.  We record the
(absent) assignment operation of the specialisation as an `Option`al state
transformer, which is `none`. -/
def Swizzle2Spec.assignFromVec (α : Type) : Option (Vec2 α → Vec2 α → Vec2 α) :=
  none

/-- Reading any 2-component swizzle `(A, B)`: C++ overload resolution uses
the `_Swizzle<A, A>` specialisation when the indices coincide and the
generic `_Swizzle<A, B>` conversion otherwise. -/
def Swizzle2.read (A B : Fin 2) (parent : Vec2 α) : Vec2 α :=
  if A = B then Swizzle2Spec.conv A parent else Swizzle2.convGeneric A B parent

/-! ## Helper lemmas -/

/-- `v[0]` is `x`. -/
theorem Vec2.get_zero (v : Vec2 α) : v.get 0 = v.x := rfl

/-- `v[1]` is `y`. -/
theorem Vec2.get_one (v : Vec2 α) : v.get 1 = v.y := rfl

/-- Writing `v[0]` replaces `x`. -/
theorem Vec2.set_zero (v : Vec2 α) (a : α) : v.set 0 a = ⟨a, v.y⟩ := rfl

/-- Writing `v[1]` replaces `y`. -/
theorem Vec2.set_one (v : Vec2 α) (a : α) : v.set 1 a = ⟨v.x, a⟩ := rfl

/-- A sum of two rational squares vanishes only when both terms do. -/
theorem sum_sq_eq_zero_two {a b : ℚ} (h : a * a + b * b = 0) :
    a = 0 ∧ b = 0 := by
  have ha : a * a = 0 := by nlinarith [mul_self_nonneg a, mul_self_nonneg b]
  have hb : b * b = 0 := by nlinarith [mul_self_nonneg a, mul_self_nonneg b]
  exact ⟨mul_self_eq_zero.mp ha, mul_self_eq_zero.mp hb⟩

/-- A sum of three rational squares vanishes only when all terms do. -/
theorem sum_sq_eq_zero_three {a b c : ℚ} (h : a * a + b * b + c * c = 0) :
    a = 0 ∧ b = 0 ∧ c = 0 := by
  have ha : a * a = 0 := by
    nlinarith [mul_self_nonneg a, mul_self_nonneg b, mul_self_nonneg c]
  have hb : b * b = 0 := by
    nlinarith [mul_self_nonneg a, mul_self_nonneg b, mul_self_nonneg c]
  have hc : c * c = 0 := by
    nlinarith [mul_self_nonneg a, mul_self_nonneg b, mul_self_nonneg c]
  exact ⟨mul_self_eq_zero.mp ha, mul_self_eq_zero.mp hb, mul_self_eq_zero.mp hc⟩

/-- A sum of four rational squares vanishes only when all terms do. -/
theorem sum_sq_eq_zero_four {a b c d : ℚ}
    (h : a * a + b * b + c * c + d * d = 0) :
    a = 0 ∧ b = 0 ∧ c = 0 ∧ d = 0 := by
  have ha : a * a = 0 := by
    nlinarith [mul_self_nonneg a, mul_self_nonneg b, mul_self_nonneg c,
      mul_self_nonneg d]
  have hb : b * b = 0 := by
    nlinarith [mul_self_nonneg a, mul_self_nonneg b, mul_self_nonneg c,
      mul_self_nonneg d]
  have hc : c * c = 0 := by
    nlinarith [mul_self_nonneg a, mul_self_nonneg b, mul_self_nonneg c,
      mul_self_nonneg d]
  have hd : d * d = 0 := by
    nlinarith [mul_self_nonneg a, mul_self_nonneg b, mul_self_nonneg c,
      mul_self_nonneg d]
  exact ⟨mul_self_eq_zero.mp ha, mul_self_eq_zero.mp hb,
    mul_self_eq_zero.mp hc, mul_self_eq_zero.mp hd⟩

/-! ## Claims -/

/-- C1 (counterexample): the claim presumes that a `Vec2{a, b}` can be
assigned into a repeated-index swizzle such as `xx` and that the shared
backing element then holds `b`; but `_Swizzle<A, A>`, the class C++ selects
for every repeated-index swizzle, provides no assignment from a vector at
all — at the concrete input `v = (1, 1)`, source `(5, 7)`, no operation
exists that could leave the backing element holding `7`. -/
theorem swizzle2_repeated_write_not_available :
    ¬ ∃ f : Vec2 ℚ → Vec2 ℚ → Vec2 ℚ,
        Swizzle2Spec.assignFromVec ℚ = some f ∧ (f ⟨1, 1⟩ ⟨5, 7⟩).get 0 = 7 := by
  rintro ⟨f, hf, -⟩
  simp [Swizzle2Spec.assignFromVec] at hf

/-- C1 (amended): assigning a `Vec2<T>{a, b}` into a repeated-index swizzle
is not available — the `_Swizzle<A, A>` specialisation chosen for such
swizzles declares no assignment operator, so the write is rejected at
compile time.  (In the generic swizzle write, whose statements run left to
right, a repeated index would indeed end up holding the source's second
component `b`, but that class is never instantiated at repeated indices.) -/
theorem swizzle2_repeated_write_rejected :
    Swizzle2Spec.assignFromVec ℚ = none ∧
    ∀ (A : Fin 2) (v rhs : Vec2 ℚ),
      ((Swizzle2.assign A A v rhs).2).get A = rhs.y := by
  refine ⟨rfl, ?_⟩
  intro A v rhs
  fin_cases A <;> rfl

/-- C2: `Vec2::operator+=` and `Vec2::operator*=` do not implement the
element-wise addition and multiplication that the claim (and the operators'
own comments) describe: `(8, 9) += (2, 3)` yields `(4, 3)` rather than
`(10, 12)` because the body divides, and `(2, 3) *= (4, 5)` yields
`(8, 12)` rather than `(8, 15)` because `y` is multiplied by `rhs.x`. -/
theorem vec2_compound_add_mul_assign_bug :
    (Vec2.addAssignVec (⟨8, 9⟩ : Vec2 ℚ) ⟨2, 3⟩).2 = ⟨4, 3⟩ ∧
    ((⟨4, 3⟩ : Vec2 ℚ) ≠ ⟨10, 12⟩) ∧
    (Vec2.mulAssignVec (⟨2, 3⟩ : Vec2 ℚ) ⟨4, 5⟩).2 = ⟨8, 12⟩ ∧
    ((⟨8, 12⟩ : Vec2 ℚ) ≠ ⟨8, 15⟩) := by
  refine ⟨?_, ?_, ?_, ?_⟩ <;>
    simp only [Vec2.addAssignVec, Vec2.mulAssignVec, Vec2.mk.injEq, ne_eq,
      not_and] <;>
    norm_num

/-- C3: for 2-, 3- and 4-component vectors of exactly zero magnitude (the
radicand of `length()` is zero, and the square root of a nonnegative real
vanishes only at zero), `normalize()` leaves the vector unchanged and
`normalized()` returns the zero vector — equal to the receiver — with the
receiver untouched, whatever value the square-root routine returns; no
division that could produce NaN or infinity is observable in the result. -/
theorem normalize_zero_noop (sqrt : ℚ → ℚ) (v2 : Vec2 ℚ) (v3 : Vec3 ℚ)
    (v4 : Vec4 ℚ) (h2 : v2.lengthSq = 0) (h3 : v3.lengthSq = 0)
    (h4 : v4.lengthSq = 0) :
    v2.normalize sqrt = v2 ∧ v2.normalized sqrt = (v2, v2) ∧
    v3.normalize sqrt = v3 ∧ v3.normalized sqrt = (v3, v3) ∧
    v4.normalize sqrt = v4 ∧ v4.normalized sqrt = (v4, v4) := by
  obtain ⟨x2, y2⟩ := v2
  obtain ⟨x3, y3, z3⟩ := v3
  obtain ⟨x4, y4, z4, w4⟩ := v4
  obtain ⟨hx2, hy2⟩ := sum_sq_eq_zero_two (by simpa [Vec2.lengthSq] using h2)
  obtain ⟨hx3, hy3, hz3⟩ :=
    sum_sq_eq_zero_three (by simpa [Vec3.lengthSq] using h3)
  obtain ⟨hx4, hy4, hz4, hw4⟩ :=
    sum_sq_eq_zero_four (by simpa [Vec4.lengthSq] using h4)
  subst hx2 hy2 hx3 hy3 hz3 hx4 hy4 hz4 hw4
  refine ⟨?_, ?_, ?_, ?_, ?_, ?_⟩ <;>
    simp only [Vec2.normalize, Vec2.normalized, Vec2.mkZero, Vec2.lengthSq,
      Vec2.divAssignScalar, Vec3.normalize, Vec3.normalized, Vec3.mkZero,
      Vec3.lengthSq, Vec3.divAssignScalar, Vec4.normalize, Vec4.normalized,
      Vec4.mkZero, Vec4.lengthSq, Vec4.divAssignScalar] <;>
    split <;>
    simp

/-- Witness for `normalize_zero_noop`: the zero vectors have zero radicand,
and with the identity as the square-root function normalisation leaves them
unchanged. -/
theorem normalize_zero_noop_witness :
    Vec2.lengthSq ⟨0, 0⟩ = 0 ∧ Vec3.lengthSq ⟨0, 0, 0⟩ = 0 ∧
    Vec4.lengthSq ⟨0, 0, 0, 0⟩ = 0 ∧
    Vec2.normalize id ⟨0, 0⟩ = ⟨0, 0⟩ ∧
    Vec4.normalized id ⟨0, 0, 0, 0⟩ = (⟨0, 0, 0, 0⟩, ⟨0, 0, 0, 0⟩) := by
  have h2 : Vec2.lengthSq ⟨0, 0⟩ = 0 := by norm_num [Vec2.lengthSq]
  have h3 : Vec3.lengthSq ⟨0, 0, 0⟩ = 0 := by norm_num [Vec3.lengthSq]
  have h4 : Vec4.lengthSq ⟨0, 0, 0, 0⟩ = 0 := by norm_num [Vec4.lengthSq]
  have h := normalize_zero_noop id ⟨0, 0⟩ ⟨0, 0, 0⟩ ⟨0, 0, 0, 0⟩ h2 h3 h4
  exact ⟨h2, h3, h4, h.1, h.2.2.2.2.2⟩

/-- C4: `Vec4::normalized()` is not pure — at the failing input
`(2, 0, 0, 0)` (magnitude 2) the receiver is divided in place by
`*this /= len` and ends as `(1, 0, 0, 0)`, different from the original,
contrary to the claim that the vector it is called on is left unchanged. -/
theorem vec4_normalized_mutates_receiver (sqrt : ℚ → ℚ) (h : sqrt 4 = 2) :
    Vec4.normalized sqrt ⟨2, 0, 0, 0⟩ = (⟨1, 0, 0, 0⟩, ⟨1, 0, 0, 0⟩) ∧
    ((⟨1, 0, 0, 0⟩ : Vec4 ℚ) ≠ ⟨2, 0, 0, 0⟩) := by
  have hr : Vec4.lengthSq ⟨2, 0, 0, 0⟩ = 4 := by norm_num [Vec4.lengthSq]
  constructor
  · simp only [Vec4.normalized, hr, h, Vec4.divAssignScalar]
    norm_num
  · simp only [ne_eq, Vec4.mk.injEq, not_and]
    norm_num

/-- Witness for `vec4_normalized_mutates_receiver` with a concrete
square-root function satisfying `sqrt 4 = 2`. -/
theorem vec4_normalized_mutates_receiver_witness :
    (fun s : ℚ => if s = 4 then 2 else 0) 4 = 2 ∧
    Vec4.normalized (fun s : ℚ => if s = 4 then 2 else 0) ⟨2, 0, 0, 0⟩ =
      (⟨1, 0, 0, 0⟩, ⟨1, 0, 0, 0⟩) := by
  refine ⟨by norm_num, (vec4_normalized_mutates_receiver _ ?_).1⟩
  norm_num

/-- C5: scalar multiplication commutes — for every scalar and every 2-, 3-
and 4-component rational vector, the member `v * s` and the (spec-modelled)
free `s * v` are both defined and yield the same vector; in particular
`(2, 2, 2) * 2` and `2 * (2, 2, 2)` both equal `(4, 4, 4)`. -/
theorem scalar_mul_commutes (s : ℚ) (v2 : Vec2 ℚ) (v3 : Vec3 ℚ)
    (v4 : Vec4 ℚ) :
    v2.mulScalar s = scalarMulVec2 s v2 ∧
    v3.mulScalar s = scalarMulVec3 s v3 ∧
    v4.mulScalar s = scalarMulVec4 s v4 ∧
    Vec3.mulScalar (⟨2, 2, 2⟩ : Vec3 ℚ) 2 = ⟨4, 4, 4⟩ ∧
    scalarMulVec3 (2 : ℚ) ⟨2, 2, 2⟩ = ⟨4, 4, 4⟩ := by
  refine ⟨?_, ?_, ?_, ?_, ?_⟩ <;>
    simp only [Vec2.mulScalar, Vec3.mulScalar, Vec4.mulScalar, scalarMulVec2,
      scalarMulVec3, scalarMulVec4, Vec2.mk.injEq, Vec3.mk.injEq,
      Vec4.mk.injEq] <;>
    constructorm* _ ∧ _ <;>
    first
      | exact mul_comm ..
      | norm_num

/-- C6: reading any 2-component swizzle `(A, B)` — including the
repeated-index specialisation — produces the fresh vector whose component
`i` is the parent's stored component at tuple index `i`; for the parent
`(1, 2)`, the `xx` read (indices `(0, 0)`) gives `(1, 1)` and the `xy` read
(indices `(0, 1)`) gives `(1, 2)`.  The read is a pure function of the
parent and performs no write. -/
theorem swizzle2_read_components :
    (∀ (A B : Fin 2) (v : Vec2 ℚ), Swizzle2.read A B v = ⟨v.get A, v.get B⟩) ∧
    Swizzle2.read 0 0 (⟨1, 2⟩ : Vec2 ℚ) = ⟨1, 1⟩ ∧
    Swizzle2.read 0 1 (⟨1, 2⟩ : Vec2 ℚ) = ⟨1, 2⟩ := by
  refine ⟨?_, by rfl, by rfl⟩
  intro A B v
  by_cases h : A = B
  · subst h
    simp [Swizzle2.read, Swizzle2Spec.conv]
  · simp [Swizzle2.read, h, Swizzle2.convGeneric]

/-- C7: the `xy` swizzle (indices `(0, 1)`) round-trips — assigning back
what was read leaves the parent unmodified — and assigning a vector `w`
through it sets exactly component 0 of the parent to `w`'s first component
and component 1 to `w`'s second component. -/
theorem swizzle2_xy_roundtrip :
    (∀ v : Vec2 ℚ, (Swizzle2.assign 0 1 v (Swizzle2.read 0 1 v)).2 = v) ∧
    (∀ v w : Vec2 ℚ,
      ((Swizzle2.assign 0 1 v w).2).get 0 = w.x ∧
      ((Swizzle2.assign 0 1 v w).2).get 1 = w.y) := by
  constructor
  · intro v
    rfl
  · intro v w
    exact ⟨rfl, rfl⟩

/-- C8 (counterexample): `Vec3::operator+=` is declared `void`; at the
concrete input `(1, 2, 3) += (4, 5, 6)` the expression yields no value, so
the operation's result is not the vector's post-assignment value. -/
theorem compound_assign_returns_no_value :
    (Vec3.addAssignVec (⟨1, 2, 3⟩ : Vec3 ℚ) ⟨4, 5, 6⟩).1 ≠
      some ((Vec3.addAssignVec (⟨1, 2, 3⟩ : Vec3 ℚ) ⟨4, 5, 6⟩).2) := by
  simp [Vec3.addAssignVec]

/-- C8 (amended): every compound-assignment operator (`+= -= *= /=`, with a
vector or a scalar right-hand side) on `Vec2`, `Vec3` and `Vec4` mutates
the vector in place but is declared with return type `void`: the expression
yields no value, so the result cannot be observed and chaining is not
supported. -/
theorem compound_assign_void_return :
    ∀ (v2 r2 : Vec2 ℚ) (v3 r3 : Vec3 ℚ) (v4 r4 : Vec4 ℚ) (s : ℚ),
      (v2.addAssignVec r2).1 = none ∧ (v2.subAssignVec r2).1 = none ∧
      (v2.mulAssignVec r2).1 = none ∧ (v2.divAssignVec r2).1 = none ∧
      (v2.addAssignScalar s).1 = none ∧ (v2.subAssignScalar s).1 = none ∧
      (v2.mulAssignScalar s).1 = none ∧ (v2.divAssignScalar s).1 = none ∧
      (v3.addAssignVec r3).1 = none ∧ (v3.subAssignVec r3).1 = none ∧
      (v3.mulAssignVec r3).1 = none ∧ (v3.divAssignVec r3).1 = none ∧
      (v3.addAssignScalar s).1 = none ∧ (v3.subAssignScalar s).1 = none ∧
      (v3.mulAssignScalar s).1 = none ∧ (v3.divAssignScalar s).1 = none ∧
      (v4.addAssignVec r4).1 = none ∧ (v4.subAssignVec r4).1 = none ∧
      (v4.mulAssignVec r4).1 = none ∧ (v4.divAssignVec r4).1 = none ∧
      (v4.addAssignScalar s).1 = none ∧ (v4.subAssignScalar s).1 = none ∧
      (v4.mulAssignScalar s).1 = none ∧ (v4.divAssignScalar s).1 = none := by
  intro v2 r2 v3 r3 v4 r4 s
  exact ⟨rfl, rfl, rfl, rfl, rfl, rfl, rfl, rfl, rfl, rfl, rfl, rfl, rfl,
    rfl, rfl, rfl, rfl, rfl, rfl, rfl, rfl, rfl, rfl, rfl⟩

/-- C9: the three-argument cross product on 4-component vectors never
produces a result vector: its body is an unfinished TODO with no return
statement, so every call yields no value. -/
theorem cross4_no_result : ∀ v1 v2 v3 : Vec4 ℚ, cross4 v1 v2 v3 = none :=
  fun _ _ _ => rfl

/-- C10: assignment and compound assignment through the distinct-index `yx`
swizzle (indices `(1, 0)`) return the parent vector in storage order, not
the right-hand side in swizzle order: after `v.yx = (a, b)` both the
expression's value and the parent's new stored value equal `(b, a)`, and
`v.yx += rhs` likewise returns exactly the parent's new stored value. -/
theorem swizzle2_yx_assign_returns_parent :
    (∀ (a b : ℚ) (v : Vec2 ℚ),
      Swizzle2.assign 1 0 v ⟨a, b⟩ = (⟨b, a⟩, ⟨b, a⟩)) ∧
    (∀ v rhs : Vec2 ℚ,
      (Swizzle2.addAssign 1 0 v rhs).1 = (Swizzle2.addAssign 1 0 v rhs).2 ∧
      (Swizzle2.addAssign 1 0 v rhs).2 = ⟨v.x + rhs.y, v.y + rhs.x⟩) := by
  constructor
  · intro a b v
    rfl
  · intro v rhs
    exact ⟨rfl, rfl⟩

end hm
